import Mathlib

/-!
# PushChainRoulette — shallow embedding and verification

This file embeds the on-chain game contract `PushChainRoulette`
(`contracts/PushChainRoulette.sol`) in Lean 4 and proves properties of its
state machine: commit/reveal lifecycle, admission control, prize resolution,
payout accounting and the house-balance invariants.

Modelling conventions:
* Machine integers (`uint256`) are `Nat`.  Solidity 0.8 uses checked
  arithmetic, so no wrap-around occurs in successful executions; every
  subtraction in the contract is guarded by an explicit `require`/`if` so
  `Nat` truncated subtraction agrees with the source on all paths a call can
  actually take.
* `keccak256(abi.encodePacked(...))` used for 32-byte commitments is modelled
  as a free constructor of an inductive type `B32` (a collision-free hash
  idealisation): distinct inputs give distinct hashes, and equality of hashes
  is decidable.
* The `uint256` keccak output feeding the random draws
  (`_generateRandomNumber` / `_generateQuickRandomNumber`) depends on
  environment values (`block.prevrandao`, `blockhash`, balances); it is
  supplied by the call context as an arbitrary `entropy : Nat` and reduced
  `% 1000` exactly as in the source.
* Each external call executes atomically; an EVM revert is modelled by an
  `Except.error` result, and the transition function `applyOp` maps an error
  to the unchanged pre-state (all writes undone).  The success of the low
  level `call{value: ...}("")` transfer is an environment input
  (`Ctx.transferOk`).
* Outgoing value transfers are recorded in the output as `ECall` records,
  each carrying the `houseBalance` visible at the moment the external call is
  made, so checks-effects-interactions ordering is observable.
-/

/-- `SPIN_COST = 0.1 ether` (wei). -/
def SPIN_COST : Nat := 100000000000000000

/-- `COOLDOWN_PERIOD = 30 seconds`. -/
def COOLDOWN_PERIOD : Nat := 30

/-- `MAX_PRIZE = 1 ether` (wei). -/
def MAX_PRIZE : Nat := 1000000000000000000

/-- `REVEAL_DELAY = 2` blocks. -/
def REVEAL_DELAY : Nat := 2

/-- `PRIZE_0 = 0`. -/
def PRIZE_0 : Nat := 0

/-- `PRIZE_1 = 0.05 ether`. -/
def PRIZE_1 : Nat := 50000000000000000

/-- `PRIZE_2 = 0.1 ether`. -/
def PRIZE_2 : Nat := 100000000000000000

/-- `PRIZE_3 = 0.2 ether`. -/
def PRIZE_3 : Nat := 200000000000000000

/-- `PRIZE_4 = 0.5 ether`. -/
def PRIZE_4 : Nat := 500000000000000000

/-- `PRIZE_5 = 1 ether`. -/
def PRIZE_5 : Nat := 1000000000000000000

/-- 32-byte hash values, with `keccak256(abi.encodePacked(...))` idealised as
a collision-free hash: each packing used by the contract is a distinct free
constructor.
* `secretHash s` models `keccak256(abi.encodePacked(secret))`;
* `commitH sh sender ts n` models
  `keccak256(abi.encodePacked(secretHash, msg.sender, block.timestamp, nonce))`;
* `zero` is `bytes32(0)`, the default storage value. -/
inductive B32 where
  | secretHash (secret : Nat)
  | commitH (sh : B32) (sender : Nat) (timestamp : Nat) (nonce : Nat)
  | zero
deriving DecidableEq, Repr

/-- `struct SpinCommit { bytes32 commitHash; uint256 blockNumber;
uint256 betAmount; bool revealed; }` -/
structure SpinCommit where
  commitHash : B32
  blockNumber : Nat
  betAmount : Nat
  revealed : Bool
deriving DecidableEq, Repr

/-- The default (zero-initialised) `SpinCommit` storage slot. -/
def SpinCommit.default : SpinCommit := ⟨B32.zero, 0, 0, false⟩

/-- Pointwise update of a Solidity `mapping(address => ...)`, modelled as a
total function from addresses (`Nat`) with default-zero semantics. -/
def upd {α : Type} (m : Nat → α) (k : Nat) (v : α) : Nat → α :=
  fun k' => if k' = k then v else m k'

/-- Contract storage plus the contract's own ether balance
(`address(this).balance`) and the `Ownable`/`Pausable` state. -/
structure RState where
  houseBalance : Nat
  nonce : Nat
  commits : Nat → SpinCommit
  lastSpinTime : Nat → Nat
  playerTotalSpins : Nat → Nat
  playerTotalWins : Nat → Nat
  paused : Bool
  owner : Nat
  balance : Nat

/-- State at deployment: all storage zero, deployer is owner, not paused,
no ether held. -/
def initialState (deployer : Nat) : RState :=
  { houseBalance := 0
    nonce := 0
    commits := fun _ => SpinCommit.default
    lastSpinTime := fun _ => 0
    playerTotalSpins := fun _ => 0
    playerTotalWins := fun _ => 0
    paused := false
    owner := deployer
    balance := 0 }

/-- Per-call environment: caller, attached value, block metadata, the keccak
entropy word feeding the random draw, and whether the outgoing low-level
transfer (if any) succeeds. -/
structure Ctx where
  sender : Nat
  value : Nat
  timestamp : Nat
  blockNumber : Nat
  entropy : Nat
  transferOk : Bool
deriving Repr

/-- Revert reasons of the contract (custom errors, `require` strings, and the
`Ownable`/`Pausable` modifier failures). -/
inductive Err where
  | EnforcedPause
  | ExpectedPause
  | NotOwner
  | MustSendPC
  | InsufficientBalanceStr
  | IncorrectBetAmount (sent : Nat) (required : Nat)
  | InsufficientHouseBalance (required : Nat) (available : Nat)
  | CooldownNotExpired (timeRemaining : Nat)
  | PreviousSpinNotRevealed
  | NoCommitFound
  | CommitAlreadyRevealed
  | RevealTooEarly (blocksRemaining : Nat)
  | InvalidSecret
  | InsufficientHouseBalancePayout
  | TransferFailed
deriving DecidableEq, Repr

/-- Events emitted by the contract. -/
inductive Event where
  | SpinCommitted (player : Nat) (commitHash : B32) (blockNumber : Nat) (timestamp : Nat)
  | SpinRevealed (player : Nat) (betAmount : Nat) (prizeAmount : Nat)
      (randomNumber : Nat) (timestamp : Nat)
  | FundsDeposited (depositor : Nat) (amount : Nat)
  | FundsWithdrawn (owner : Nat) (amount : Nat)
deriving DecidableEq, Repr

/-- Record of an outgoing `call{value: v}("")`: recipient, value, the
`houseBalance` already in storage at the moment of the call, and whether the
call succeeded. -/
structure ECall where
  recipient : Nat
  value : Nat
  hbAtCall : Nat
  ok : Bool
deriving DecidableEq, Repr

/-- Result of a successful external call: post-state, emitted events,
outgoing transfers, and the numeric / hash return values. -/
structure Out where
  st : RState
  events : List Event
  calls : List ECall
  ret : Nat
  retH : B32

/-- `_calculatePrize`: deterministic tier lookup on the draw. -/
def calculatePrize (randomNumber : Nat) : Nat :=
  if randomNumber < 600 then PRIZE_0
  else if randomNumber < 900 then PRIZE_1
  else if randomNumber < 950 then PRIZE_2
  else if randomNumber < 980 then PRIZE_3
  else if randomNumber < 995 then PRIZE_4
  else PRIZE_5

/-- `_generateRandomNumber`: the `uint256` keccak word over
`(secret, block.prevrandao, blockhash(commitBlock), block.timestamp,
msg.sender, nonce, address(this).balance)` is environment-supplied
(`entropy`); the function reduces it `% 1000` as in the source. -/
def generateRandomNumber (entropy : Nat) : Nat := entropy % 1000

/-- `_generateQuickRandomNumber`: the `uint256` keccak word over
`(block.prevrandao, block.timestamp, msg.sender, nonce,
blockhash(block.number - 1), address(this).balance)` is environment-supplied
(`entropy`); reduced `% 1000` as in the source.  The source's leading
`nonce++` is performed at the call site in `quickSpin`. -/
def generateQuickRandomNumber (entropy : Nat) : Nat := entropy % 1000

/-- `depositFunds()`: owner-only, payable, requires a positive value; folds
the value into `houseBalance`. -/
def depositFunds (s : RState) (c : Ctx) : Except Err Out :=
  if c.sender ≠ s.owner then .error .NotOwner
  else if ¬ 0 < c.value then .error .MustSendPC
  else .ok
    { st := { s with
        houseBalance := s.houseBalance + c.value
        balance := s.balance + c.value }
      events := [.FundsDeposited c.sender c.value]
      calls := []
      ret := 0
      retH := B32.zero }

/-- `withdrawFunds(amount)`: owner-only; requires `amount <= houseBalance`;
decrements `houseBalance`, then performs the transfer; reverts whole call on
transfer failure. -/
def withdrawFunds (s : RState) (c : Ctx) (amount : Nat) : Except Err Out :=
  if c.sender ≠ s.owner then .error .NotOwner
  else if ¬ amount ≤ s.houseBalance then .error .InsufficientBalanceStr
  else if ¬ c.transferOk then .error .TransferFailed
  else .ok
    { st := { s with
        houseBalance := s.houseBalance - amount
        balance := s.balance - amount }
      events := [.FundsWithdrawn s.owner amount]
      calls := [⟨s.owner, amount, s.houseBalance - amount, true⟩]
      ret := 0
      retH := B32.zero }

/-- `commitSpin(secretHash)`: admission control (exact payment, solvency,
cooldown, no pending unrevealed commit), then folds the wager into
`houseBalance`, stamps the cooldown, derives the commit hash from
`(secretHash, msg.sender, block.timestamp, nonce++)` and stores the commit
record. -/
def commitSpin (s : RState) (c : Ctx) (secretHash : B32) : Except Err Out :=
  if s.paused then .error .EnforcedPause
  else if c.value ≠ SPIN_COST then .error (.IncorrectBetAmount c.value SPIN_COST)
  else if s.houseBalance < MAX_PRIZE then
    .error (.InsufficientHouseBalance MAX_PRIZE s.houseBalance)
  else if c.timestamp < s.lastSpinTime c.sender + COOLDOWN_PERIOD then
    .error (.CooldownNotExpired (s.lastSpinTime c.sender + COOLDOWN_PERIOD - c.timestamp))
  else if ¬ ((s.commits c.sender).revealed = true ∨ (s.commits c.sender).blockNumber = 0) then
    .error .PreviousSpinNotRevealed
  else
    .ok
      { st := { s with
          houseBalance := s.houseBalance + c.value
          balance := s.balance + c.value
          lastSpinTime := upd s.lastSpinTime c.sender c.timestamp
          nonce := s.nonce + 1
          commits := upd s.commits c.sender
            ⟨B32.commitH secretHash c.sender c.timestamp s.nonce, c.blockNumber, c.value, false⟩ }
        events := [.SpinCommitted c.sender
          (B32.commitH secretHash c.sender c.timestamp s.nonce) c.blockNumber c.timestamp]
        calls := []
        ret := 0
        retH := B32.commitH secretHash c.sender c.timestamp s.nonce }

/-- `revealSpin(secret)`: requires a pending unrevealed commit, the
maturation window elapsed, and the recomputed commitment
`keccak(keccak(secret), msg.sender, s_lastSpinTime[msg.sender], nonce - 1)`
to match the stored hash; marks the commit revealed, draws, pays out the
prize (reverting the payout bookkeeping, but not the resolution, when the
transfer fails), bumps the spin counter, emits `SpinRevealed`. -/
def revealSpin (s : RState) (c : Ctx) (secret : Nat) : Except Err Out :=
  if s.paused then .error .EnforcedPause
  else if (s.commits c.sender).blockNumber = 0 then .error .NoCommitFound
  else if (s.commits c.sender).revealed then .error .CommitAlreadyRevealed
  else if c.blockNumber < (s.commits c.sender).blockNumber + REVEAL_DELAY then
    .error (.RevealTooEarly ((s.commits c.sender).blockNumber + REVEAL_DELAY - c.blockNumber))
  else if B32.commitH (B32.secretHash secret) c.sender (s.lastSpinTime c.sender) (s.nonce - 1)
      ≠ (s.commits c.sender).commitHash then .error .InvalidSecret
  else
    let commitRec := s.commits c.sender
    let s1 : RState := { s with
      commits := upd s.commits c.sender { commitRec with revealed := true } }
    let randomNumber := generateRandomNumber c.entropy
    let prize := calculatePrize randomNumber
    if 0 < prize then
      if s1.houseBalance < prize then .error .InsufficientHouseBalancePayout
      else
        let s2 : RState := { s1 with
          houseBalance := s1.houseBalance - prize
          playerTotalWins := upd s1.playerTotalWins c.sender
            (s1.playerTotalWins c.sender + prize) }
        let s3 : RState :=
          if c.transferOk then { s2 with balance := s2.balance - prize }
          else { s2 with
            houseBalance := s2.houseBalance + prize
            playerTotalWins := upd s2.playerTotalWins c.sender
              (s2.playerTotalWins c.sender - prize) }
        .ok
          { st := { s3 with
              playerTotalSpins := upd s3.playerTotalSpins c.sender
                (s3.playerTotalSpins c.sender + 1) }
            events := [.SpinRevealed c.sender commitRec.betAmount prize randomNumber c.timestamp]
            calls := [⟨c.sender, prize, s2.houseBalance, c.transferOk⟩]
            ret := prize
            retH := B32.zero }
    else
      .ok
        { st := { s1 with
            playerTotalSpins := upd s1.playerTotalSpins c.sender
              (s1.playerTotalSpins c.sender + 1) }
          events := [.SpinRevealed c.sender commitRec.betAmount prize randomNumber c.timestamp]
          calls := []
          ret := prize
          retH := B32.zero }

/-- `quickSpin()`: admission control (exact payment, solvency, cooldown),
folds the wager in, stamps the cooldown, advances the nonce
(`_generateQuickRandomNumber` starts with `nonce++`), draws, pays out the
prize with the same transfer-failure recovery as `revealSpin`, bumps the
spin counter, emits `SpinRevealed`. -/
def quickSpin (s : RState) (c : Ctx) : Except Err Out :=
  if s.paused then .error .EnforcedPause
  else if c.value ≠ SPIN_COST then .error (.IncorrectBetAmount c.value SPIN_COST)
  else if s.houseBalance < MAX_PRIZE then
    .error (.InsufficientHouseBalance MAX_PRIZE s.houseBalance)
  else if c.timestamp < s.lastSpinTime c.sender + COOLDOWN_PERIOD then
    .error (.CooldownNotExpired (s.lastSpinTime c.sender + COOLDOWN_PERIOD - c.timestamp))
  else
    let s1 : RState := { s with
      houseBalance := s.houseBalance + c.value
      balance := s.balance + c.value
      lastSpinTime := upd s.lastSpinTime c.sender c.timestamp
      nonce := s.nonce + 1 }
    let randomNumber := generateQuickRandomNumber c.entropy
    let prize := calculatePrize randomNumber
    if 0 < prize then
      if s1.houseBalance < prize then .error .InsufficientHouseBalancePayout
      else
        let s2 : RState := { s1 with
          houseBalance := s1.houseBalance - prize
          playerTotalWins := upd s1.playerTotalWins c.sender
            (s1.playerTotalWins c.sender + prize) }
        let s3 : RState :=
          if c.transferOk then { s2 with balance := s2.balance - prize }
          else { s2 with
            houseBalance := s2.houseBalance + prize
            playerTotalWins := upd s2.playerTotalWins c.sender
              (s2.playerTotalWins c.sender - prize) }
        .ok
          { st := { s3 with
              playerTotalSpins := upd s3.playerTotalSpins c.sender
                (s3.playerTotalSpins c.sender + 1) }
            events := [.SpinRevealed c.sender c.value prize randomNumber c.timestamp]
            calls := [⟨c.sender, prize, s2.houseBalance, c.transferOk⟩]
            ret := prize
            retH := B32.zero }
    else
      .ok
        { st := { s1 with
            playerTotalSpins := upd s1.playerTotalSpins c.sender
              (s1.playerTotalSpins c.sender + 1) }
          events := [.SpinRevealed c.sender c.value prize randomNumber c.timestamp]
          calls := []
          ret := prize
          retH := B32.zero }

/-- `pause()`: owner-only; `_pause` requires the contract not already
paused. -/
def pauseFn (s : RState) (c : Ctx) : Except Err Out :=
  if c.sender ≠ s.owner then .error .NotOwner
  else if s.paused then .error .EnforcedPause
  else .ok { st := { s with paused := true }, events := [], calls := [],
             ret := 0, retH := B32.zero }

/-- `unpause()`: owner-only; `_unpause` requires the contract paused. -/
def unpauseFn (s : RState) (c : Ctx) : Except Err Out :=
  if c.sender ≠ s.owner then .error .NotOwner
  else if ¬ s.paused then .error .ExpectedPause
  else .ok { st := { s with paused := false }, events := [], calls := [],
             ret := 0, retH := B32.zero }

/-- `emergencyWithdraw()`: owner-only, only while paused; drains the whole
contract balance to the owner and zeroes `houseBalance`; reverts on transfer
failure. -/
def emergencyWithdraw (s : RState) (c : Ctx) : Except Err Out :=
  if c.sender ≠ s.owner then .error .NotOwner
  else if ¬ s.paused then .error .ExpectedPause
  else if ¬ c.transferOk then .error .TransferFailed
  else .ok
    { st := { s with houseBalance := 0, balance := 0 }
      events := [.FundsWithdrawn s.owner s.balance]
      calls := [⟨s.owner, s.balance, 0, true⟩]
      ret := 0
      retH := B32.zero }

/-- `receive()`: a bare value transfer; accepted from any sender, folds the
value into `houseBalance` and emits `FundsDeposited`. -/
def receiveEther (s : RState) (c : Ctx) : Except Err Out :=
  .ok
    { st := { s with
        houseBalance := s.houseBalance + c.value
        balance := s.balance + c.value }
      events := [.FundsDeposited c.sender c.value]
      calls := []
      ret := 0
      retH := B32.zero }

/-- `fallback()`: identical body to `receive()`. -/
def fallbackEther (s : RState) (c : Ctx) : Except Err Out :=
  .ok
    { st := { s with
        houseBalance := s.houseBalance + c.value
        balance := s.balance + c.value }
      events := [.FundsDeposited c.sender c.value]
      calls := []
      ret := 0
      retH := B32.zero }

/-- The contract's public state-mutating operation surface. -/
inductive Op where
  | deposit
  | withdraw (amount : Nat)
  | commit (secretHash : B32)
  | reveal (secret : Nat)
  | quick
  | pauseOp
  | unpauseOp
  | emergency
  | receiveOp
  | fallbackOp

/-- Dispatch an operation to its handler. -/
def dispatch (s : RState) (op : Op) (c : Ctx) : Except Err Out :=
  match op with
  | .deposit => depositFunds s c
  | .withdraw amount => withdrawFunds s c amount
  | .commit secretHash => commitSpin s c secretHash
  | .reveal secret => revealSpin s c secret
  | .quick => quickSpin s c
  | .pauseOp => pauseFn s c
  | .unpauseOp => unpauseFn s c
  | .emergency => emergencyWithdraw s c
  | .receiveOp => receiveEther s c
  | .fallbackOp => fallbackEther s c

/-- The state transition of one external call: a revert (error) undoes every
write, leaving the pre-state. -/
def applyOp (s : RState) (op : Op) (c : Ctx) : RState :=
  match dispatch s op c with
  | .ok o => o.st
  | .error _ => s

/-- Whether an external call succeeds (does not revert). -/
def okStep (s : RState) (op : Op) (c : Ctx) : Bool :=
  match dispatch s op c with
  | .ok _ => true
  | .error _ => false

/-- Run a sequence of external calls. -/
def runOps (s : RState) (steps : List (Op × Ctx)) : RState :=
  steps.foldl (fun st p => applyOp st p.1 p.2) s

/-- An operation that advances the global nonce: a `commitSpin` or a
`quickSpin`. -/
def isSpinOp : Op → Prop
  | .commit _ => True
  | .quick => True
  | _ => False

/-- A step list contains a spin operation (commit or quick) that succeeds at
its position in the run from `s`. -/
def interveningSpin (s : RState) (steps : List (Op × Ctx)) : Prop :=
  ∃ pre step post, steps = pre ++ step :: post ∧ isSpinOp step.1 ∧
    okStep (runOps s pre) step.1 step.2 = true

/-! ## Shared helper lemmas -/

theorem upd_same {α : Type} (m : Nat → α) (k : Nat) (v : α) : upd m k v k = v := by
  simp [upd]

theorem upd_ne {α : Type} (m : Nat → α) (k k' : Nat) (v : α) (h : k' ≠ k) :
    upd m k v k' = m k' := by
  simp [upd, h]

theorem calculatePrize_le_max (r : Nat) : calculatePrize r ≤ MAX_PRIZE := by
  unfold calculatePrize
  split
  · decide
  split
  · decide
  split
  · decide
  split
  · decide
  split
  · decide
  · decide

/-! ## Claims -/

/-- C6: the prize lookup is a deterministic function of the draw alone; every
draw (commit-reveal or quick) is an integer in `0..999`; the tier cutoffs are
exactly 600 / 900 / 950 / 980 / 995; the six prize amounts are monotonically
increasing (0, 0.05, 0.1, 0.2, 0.5, 1 ether) and the largest equals
`MAX_PRIZE`. -/
theorem prize_tier_spec :
    (∀ entropy, generateRandomNumber entropy < 1000) ∧
    (∀ entropy, generateQuickRandomNumber entropy < 1000) ∧
    (∀ r, r < 600 → calculatePrize r = PRIZE_0) ∧
    (∀ r, 600 ≤ r → r < 900 → calculatePrize r = PRIZE_1) ∧
    (∀ r, 900 ≤ r → r < 950 → calculatePrize r = PRIZE_2) ∧
    (∀ r, 950 ≤ r → r < 980 → calculatePrize r = PRIZE_3) ∧
    (∀ r, 980 ≤ r → r < 995 → calculatePrize r = PRIZE_4) ∧
    (∀ r, 995 ≤ r → calculatePrize r = PRIZE_5) ∧
    PRIZE_0 < PRIZE_1 ∧ PRIZE_1 < PRIZE_2 ∧ PRIZE_2 < PRIZE_3 ∧
    PRIZE_3 < PRIZE_4 ∧ PRIZE_4 < PRIZE_5 ∧ PRIZE_5 = MAX_PRIZE := by
  refine ⟨?_, ?_, ?_, ?_, ?_, ?_, ?_, ?_, ?_, ?_, ?_, ?_, ?_, ?_⟩
  · intro e; exact Nat.mod_lt e (by decide)
  · intro e; exact Nat.mod_lt e (by decide)
  · intro r h; unfold calculatePrize; rw [if_pos h]
  · intro r h1 h2; unfold calculatePrize
    rw [if_neg (by omega), if_pos h2]
  · intro r h1 h2; unfold calculatePrize
    rw [if_neg (by omega), if_neg (by omega), if_pos h2]
  · intro r h1 h2; unfold calculatePrize
    rw [if_neg (by omega), if_neg (by omega), if_neg (by omega), if_pos h2]
  · intro r h1 h2; unfold calculatePrize
    rw [if_neg (by omega), if_neg (by omega), if_neg (by omega), if_neg (by omega),
      if_pos h2]
  · intro r h1; unfold calculatePrize
    rw [if_neg (by omega), if_neg (by omega), if_neg (by omega), if_neg (by omega),
      if_neg (by omega)]
  · decide
  · decide
  · decide
  · decide
  · decide
  · decide

/-- C6 witness: the tier lookup evaluated at each cutoff boundary. -/
theorem prize_tier_spec_witness :
    calculatePrize 599 = PRIZE_0 ∧ calculatePrize 600 = PRIZE_1 ∧
    calculatePrize 949 = PRIZE_2 ∧ calculatePrize 979 = PRIZE_3 ∧
    calculatePrize 994 = PRIZE_4 ∧ calculatePrize 995 = PRIZE_5 :=
  ⟨prize_tier_spec.2.2.1 599 (by decide),
   prize_tier_spec.2.2.2.1 600 (by decide) (by decide),
   prize_tier_spec.2.2.2.2.1 949 (by decide) (by decide),
   prize_tier_spec.2.2.2.2.2.1 979 (by decide) (by decide),
   prize_tier_spec.2.2.2.2.2.2.1 994 (by decide) (by decide),
   prize_tier_spec.2.2.2.2.2.2.2.1 995 (by decide)⟩

/-- C10: a bare value transfer (`receive`/`fallback`) is accepted from any
sender, increases `houseBalance` by exactly the transferred amount, and emits
the same `FundsDeposited` event shape that `depositFunds` emits. -/
theorem bare_transfer_spec :
    (∀ s c, ∃ o, receiveEther s c = Except.ok o ∧
       o.st.houseBalance = s.houseBalance + c.value ∧
       o.events = [Event.FundsDeposited c.sender c.value]) ∧
    (∀ s c, ∃ o, fallbackEther s c = Except.ok o ∧
       o.st.houseBalance = s.houseBalance + c.value ∧
       o.events = [Event.FundsDeposited c.sender c.value]) ∧
    (∀ s c o, depositFunds s c = Except.ok o →
       o.events = [Event.FundsDeposited c.sender c.value]) := by
  refine ⟨fun s c => ⟨_, rfl, rfl, rfl⟩, fun s c => ⟨_, rfl, rfl, rfl⟩, ?_⟩
  intro s c o h
  unfold depositFunds at h
  split at h
  · cases h
  split at h
  · cases h
  · cases h; rfl

/-- C10 witness: a concrete deposit by the owner emits the same event a bare
transfer of the same value from the same sender emits. -/
theorem bare_transfer_spec_witness :
    ∃ o, depositFunds (initialState 0) ⟨0, 5, 0, 0, 0, true⟩ = Except.ok o ∧
      o.events = [Event.FundsDeposited 0 5] := by
  refine ⟨_, rfl, ?_⟩
  exact bare_transfer_spec.2.2 (initialState 0) ⟨0, 5, 0, 0, 0, true⟩ _ rfl

/-- Inversion of a successful `commitSpin`: the admission checks passed and
the post-state is the stored commit on top of the wager fold-in, cooldown
stamp and nonce bump. -/
theorem commitSpin_ok_inv {s : RState} {c : Ctx} {sh : B32} {o : Out}
    (h : commitSpin s c sh = Except.ok o) :
    s.paused = false ∧ c.value = SPIN_COST ∧ MAX_PRIZE ≤ s.houseBalance ∧
    s.lastSpinTime c.sender + COOLDOWN_PERIOD ≤ c.timestamp ∧
    ((s.commits c.sender).revealed = true ∨ (s.commits c.sender).blockNumber = 0) ∧
    o.st = { s with
      houseBalance := s.houseBalance + c.value
      balance := s.balance + c.value
      lastSpinTime := upd s.lastSpinTime c.sender c.timestamp
      nonce := s.nonce + 1
      commits := upd s.commits c.sender
        ⟨B32.commitH sh c.sender c.timestamp s.nonce, c.blockNumber, c.value, false⟩ } := by
  unfold commitSpin at h
  split at h
  · cases h
  split at h
  · cases h
  split at h
  · cases h
  split at h
  · cases h
  split at h
  · cases h
  cases h
  refine ⟨by simp_all, by tauto, by omega, by omega, by tauto, rfl⟩

/-- Forward evaluation of `revealSpin`: with a pending mature commit, a
matching recomputed commitment and enough `houseBalance` to cover the prize,
the call succeeds, and the only change to the commit map is marking the
caller's record revealed. -/
theorem revealSpin_ok_of {s : RState} {c : Ctx} {secret : Nat}
    (hpaused : s.paused = false)
    (hbn : (s.commits c.sender).blockNumber ≠ 0)
    (hrev : (s.commits c.sender).revealed = false)
    (hlate : (s.commits c.sender).blockNumber + REVEAL_DELAY ≤ c.blockNumber)
    (hhash : B32.commitH (B32.secretHash secret) c.sender (s.lastSpinTime c.sender)
      (s.nonce - 1) = (s.commits c.sender).commitHash)
    (hsolv : calculatePrize (generateRandomNumber c.entropy) ≤ s.houseBalance) :
    ∃ o, revealSpin s c secret = Except.ok o ∧
      o.st.commits = upd s.commits c.sender { s.commits c.sender with revealed := true } ∧
      o.st.paused = s.paused := by
  unfold revealSpin
  rw [if_neg (by simp [hpaused]), if_neg hbn, if_neg (by simp [hrev]),
    if_neg (by omega), if_neg (by simp [hhash])]
  dsimp only
  by_cases hp : 0 < calculatePrize (generateRandomNumber c.entropy)
  · rw [if_pos hp, if_neg (by omega)]
    cases hT : c.transferOk
    · simp only [Bool.false_eq_true, if_false]
      exact ⟨_, rfl, rfl, rfl⟩
    · simp only [if_true]
      exact ⟨_, rfl, rfl, rfl⟩
  · rw [if_neg hp]
    exact ⟨_, rfl, rfl, rfl⟩

/-- C1: after a successful `commitSpin`, a reveal with the correct secret
fails with `RevealTooEarly` (reporting the blocks remaining) while the block
height is below `commit.blockNumber + REVEAL_DELAY`; once the height reaches
that bound it succeeds exactly once — a second reveal on the same commit
fails with `CommitAlreadyRevealed`. -/
theorem commit_reveal_window_spec
    (s : RState) (c c' c'' : Ctx) (secret : Nat) (o : Out)
    (hc : commitSpin s c (B32.secretHash secret) = Except.ok o)
    (hbn : 0 < c.blockNumber)
    (hs' : c'.sender = c.sender) (hs'' : c''.sender = c.sender) :
    (c'.blockNumber < c.blockNumber + REVEAL_DELAY →
      revealSpin o.st c' secret =
        Except.error (Err.RevealTooEarly (c.blockNumber + REVEAL_DELAY - c'.blockNumber))) ∧
    (c.blockNumber + REVEAL_DELAY ≤ c'.blockNumber →
      ∃ o', revealSpin o.st c' secret = Except.ok o' ∧
        revealSpin o'.st c'' secret = Except.error Err.CommitAlreadyRevealed) := by
  obtain ⟨hpaused, hval, hhb, hcool, hpend, hst⟩ := commitSpin_ok_inv hc
  constructor
  · intro hearly
    rw [hst]
    unfold revealSpin
    simp only [hs', upd_same]
    rw [if_neg (by simp [hpaused]), if_neg (by omega), if_neg (by simp), if_pos hearly]
  · intro hlate
    have hbn2 : (o.st.commits c'.sender).blockNumber ≠ 0 := by
      rw [hst]; simp only [hs', upd_same]; omega
    have hrev2 : (o.st.commits c'.sender).revealed = false := by
      rw [hst]; simp only [hs', upd_same]
    have hlate2 : (o.st.commits c'.sender).blockNumber + REVEAL_DELAY ≤ c'.blockNumber := by
      rw [hst]; simp only [hs', upd_same]; exact hlate
    have hpaused2 : o.st.paused = false := by rw [hst]; exact hpaused
    have hhash2 : B32.commitH (B32.secretHash secret) c'.sender
        (o.st.lastSpinTime c'.sender) (o.st.nonce - 1)
        = (o.st.commits c'.sender).commitHash := by
      rw [hst]; simp only [hs', upd_same, Nat.add_sub_cancel]
    have hsolv2 : calculatePrize (generateRandomNumber c'.entropy) ≤ o.st.houseBalance := by
      rw [hst]
      have := calculatePrize_le_max (generateRandomNumber c'.entropy)
      simp only
      omega
    obtain ⟨o', hok, hcommits, hpaused3⟩ :=
      revealSpin_ok_of hpaused2 hbn2 hrev2 hlate2 hhash2 hsolv2
    refine ⟨o', hok, ?_⟩
    rw [hs'] at hcommits hbn2
    unfold revealSpin
    rw [if_neg (by simp [hpaused3, hpaused2]),
      if_neg (by rw [hs'', hcommits, upd_same]; simpa using hbn2),
      if_pos (by rw [hs'', hcommits, upd_same])]

/-- C1 witness: a concrete commit at block 10; reveal at block 11 fails with
one block remaining, reveal at block 12 succeeds, and revealing again fails
with `CommitAlreadyRevealed`. -/
theorem commit_reveal_window_spec_witness :
    ∃ o, commitSpin { initialState 0 with houseBalance := MAX_PRIZE, balance := MAX_PRIZE }
        ⟨1, SPIN_COST, 100, 10, 0, true⟩ (B32.secretHash 7) = Except.ok o ∧
      revealSpin o.st ⟨1, 0, 101, 11, 0, true⟩ 7 =
        Except.error (Err.RevealTooEarly 1) ∧
      ∃ o', revealSpin o.st ⟨1, 0, 102, 12, 555, true⟩ 7 = Except.ok o' ∧
        revealSpin o'.st ⟨1, 0, 103, 12, 0, true⟩ 7 =
          Except.error Err.CommitAlreadyRevealed := by
  refine ⟨_, rfl, ?_, ?_⟩
  · exact (commit_reveal_window_spec
      { initialState 0 with houseBalance := MAX_PRIZE, balance := MAX_PRIZE }
      ⟨1, SPIN_COST, 100, 10, 0, true⟩
      ⟨1, 0, 101, 11, 0, true⟩ ⟨1, 0, 103, 12, 0, true⟩ 7 _ rfl (by decide) rfl rfl).1
      (by decide)
  · exact (commit_reveal_window_spec
      { initialState 0 with houseBalance := MAX_PRIZE, balance := MAX_PRIZE }
      ⟨1, SPIN_COST, 100, 10, 0, true⟩
      ⟨1, 0, 102, 12, 555, true⟩ ⟨1, 0, 103, 12, 0, true⟩ 7 _ rfl (by decide) rfl rfl).2
      (by decide)

/-- Full inversion of a successful `revealSpin`: the guards that passed and
the complete effect on each storage field, split by prize and transfer
outcome. -/
theorem revealSpin_ok_inv {s : RState} {c : Ctx} {secret : Nat} {o : Out}
    (h : revealSpin s c secret = Except.ok o) :
    s.paused = false ∧
    (s.commits c.sender).blockNumber ≠ 0 ∧
    (s.commits c.sender).revealed = false ∧
    (s.commits c.sender).blockNumber + REVEAL_DELAY ≤ c.blockNumber ∧
    B32.commitH (B32.secretHash secret) c.sender (s.lastSpinTime c.sender)
      (s.nonce - 1) = (s.commits c.sender).commitHash ∧
    o.ret = calculatePrize (generateRandomNumber c.entropy) ∧
    o.st.commits = upd s.commits c.sender { s.commits c.sender with revealed := true } ∧
    o.st.lastSpinTime = s.lastSpinTime ∧
    o.st.nonce = s.nonce ∧
    o.st.paused = s.paused ∧
    o.st.owner = s.owner ∧
    o.st.playerTotalSpins
      = upd s.playerTotalSpins c.sender (s.playerTotalSpins c.sender + 1) ∧
    o.events = [Event.SpinRevealed c.sender (s.commits c.sender).betAmount o.ret
      (generateRandomNumber c.entropy) c.timestamp] ∧
    (o.ret = 0 → o.st.houseBalance = s.houseBalance ∧ o.st.balance = s.balance ∧
      o.st.playerTotalWins = s.playerTotalWins) ∧
    (0 < o.ret → o.ret ≤ s.houseBalance ∧
      (c.transferOk = true →
        o.st.houseBalance = s.houseBalance - o.ret ∧
        o.st.balance = s.balance - o.ret ∧
        o.st.playerTotalWins
          = upd s.playerTotalWins c.sender (s.playerTotalWins c.sender + o.ret)) ∧
      (c.transferOk = false →
        o.st.houseBalance = s.houseBalance ∧ o.st.balance = s.balance ∧
        o.st.playerTotalWins = s.playerTotalWins)) := by
  unfold revealSpin at h
  by_cases hpaused : s.paused = true
  · rw [if_pos hpaused] at h; cases h
  rw [if_neg hpaused] at h
  by_cases hbn : (s.commits c.sender).blockNumber = 0
  · rw [if_pos hbn] at h; cases h
  rw [if_neg hbn] at h
  by_cases hrev : (s.commits c.sender).revealed = true
  · rw [if_pos hrev] at h; cases h
  rw [if_neg hrev] at h
  by_cases hearly : c.blockNumber < (s.commits c.sender).blockNumber + REVEAL_DELAY
  · rw [if_pos hearly] at h; cases h
  rw [if_neg hearly] at h
  by_cases hhash : B32.commitH (B32.secretHash secret) c.sender (s.lastSpinTime c.sender)
      (s.nonce - 1) ≠ (s.commits c.sender).commitHash
  · rw [if_pos hhash] at h; cases h
  rw [if_neg hhash] at h
  dsimp only at h
  by_cases hp : 0 < calculatePrize (generateRandomNumber c.entropy)
  · rw [if_pos hp] at h
    by_cases hb2 : s.houseBalance < calculatePrize (generateRandomNumber c.entropy)
    · rw [if_pos hb2] at h; cases h
    rw [if_neg hb2] at h
    cases hT : c.transferOk
    · rw [hT] at h
      simp only [Bool.false_eq_true, if_false] at h
      cases h
      refine ⟨by simp_all, hbn, by simp_all, by omega, of_not_not hhash, rfl, rfl, rfl,
        rfl, rfl, rfl, rfl, rfl, ?_, ?_⟩
      · intro h0; exact absurd h0 (Nat.pos_iff_ne_zero.mp hp)
      · intro _
        refine ⟨not_lt.mp hb2, ?_, ?_⟩
        · intro ht; cases ht
        · intro _
          refine ⟨Nat.sub_add_cancel (not_lt.mp hb2), rfl, ?_⟩
          funext q
          by_cases hq : q = c.sender
          · simp [upd, hq]
          · simp [upd, hq]
    · rw [hT] at h
      simp only [if_true] at h
      cases h
      refine ⟨by simp_all, hbn, by simp_all, by omega, of_not_not hhash, rfl, rfl, rfl,
        rfl, rfl, rfl, rfl, rfl, ?_, ?_⟩
      · intro h0; exact absurd h0 (Nat.pos_iff_ne_zero.mp hp)
      · intro _
        refine ⟨not_lt.mp hb2, ?_, ?_⟩
        · intro _; exact ⟨rfl, rfl, rfl⟩
        · intro hf; cases hf
  · rw [if_neg hp] at h
    cases h
    refine ⟨by simp_all, hbn, by simp_all, by omega, of_not_not hhash, rfl, rfl, rfl,
      rfl, rfl, rfl, rfl, rfl, ?_, ?_⟩
    · intro _; exact ⟨rfl, rfl, rfl⟩
    · intro h0; exact absurd h0 hp

/-- Full inversion of a successful `quickSpin`: the admission checks that
passed and the complete effect on each storage field, split by prize and
transfer outcome. -/
theorem quickSpin_ok_inv {s : RState} {c : Ctx} {o : Out}
    (h : quickSpin s c = Except.ok o) :
    s.paused = false ∧ c.value = SPIN_COST ∧ MAX_PRIZE ≤ s.houseBalance ∧
    s.lastSpinTime c.sender + COOLDOWN_PERIOD ≤ c.timestamp ∧
    o.ret = calculatePrize (generateQuickRandomNumber c.entropy) ∧
    o.st.commits = s.commits ∧
    o.st.lastSpinTime = upd s.lastSpinTime c.sender c.timestamp ∧
    o.st.nonce = s.nonce + 1 ∧
    o.st.paused = s.paused ∧
    o.st.owner = s.owner ∧
    o.st.playerTotalSpins
      = upd s.playerTotalSpins c.sender (s.playerTotalSpins c.sender + 1) ∧
    o.events = [Event.SpinRevealed c.sender c.value o.ret
      (generateQuickRandomNumber c.entropy) c.timestamp] ∧
    (o.ret = 0 → o.st.houseBalance = s.houseBalance + c.value ∧
      o.st.balance = s.balance + c.value ∧
      o.st.playerTotalWins = s.playerTotalWins) ∧
    (0 < o.ret → o.ret ≤ s.houseBalance + c.value ∧
      (c.transferOk = true →
        o.st.houseBalance = s.houseBalance + c.value - o.ret ∧
        o.st.balance = s.balance + c.value - o.ret ∧
        o.st.playerTotalWins
          = upd s.playerTotalWins c.sender (s.playerTotalWins c.sender + o.ret)) ∧
      (c.transferOk = false →
        o.st.houseBalance = s.houseBalance + c.value ∧
        o.st.balance = s.balance + c.value ∧
        o.st.playerTotalWins = s.playerTotalWins)) := by
  unfold quickSpin at h
  by_cases hpaused : s.paused = true
  · rw [if_pos hpaused] at h; cases h
  rw [if_neg hpaused] at h
  by_cases hval : c.value ≠ SPIN_COST
  · rw [if_pos hval] at h; cases h
  rw [if_neg hval] at h
  by_cases hhb : s.houseBalance < MAX_PRIZE
  · rw [if_pos hhb] at h; cases h
  rw [if_neg hhb] at h
  by_cases hcool : c.timestamp < s.lastSpinTime c.sender + COOLDOWN_PERIOD
  · rw [if_pos hcool] at h; cases h
  rw [if_neg hcool] at h
  dsimp only at h
  by_cases hp : 0 < calculatePrize (generateQuickRandomNumber c.entropy)
  · rw [if_pos hp] at h
    by_cases hb2 : s.houseBalance + c.value < calculatePrize (generateQuickRandomNumber c.entropy)
    · rw [if_pos hb2] at h; cases h
    rw [if_neg hb2] at h
    cases hT : c.transferOk
    · rw [hT] at h
      simp only [Bool.false_eq_true, if_false] at h
      cases h
      refine ⟨by simp_all, of_not_not hval, by omega, by omega, rfl, rfl, rfl, rfl,
        rfl, rfl, rfl, rfl, ?_, ?_⟩
      · intro h0; exact absurd h0 (Nat.pos_iff_ne_zero.mp hp)
      · intro _
        refine ⟨not_lt.mp hb2, ?_, ?_⟩
        · intro ht; cases ht
        · intro _
          refine ⟨Nat.sub_add_cancel (not_lt.mp hb2), rfl, ?_⟩
          funext q
          by_cases hq : q = c.sender
          · simp [upd, hq]
          · simp [upd, hq]
    · rw [hT] at h
      simp only [if_true] at h
      cases h
      refine ⟨by simp_all, of_not_not hval, by omega, by omega, rfl, rfl, rfl, rfl,
        rfl, rfl, rfl, rfl, ?_, ?_⟩
      · intro h0; exact absurd h0 (Nat.pos_iff_ne_zero.mp hp)
      · intro _
        refine ⟨not_lt.mp hb2, ?_, ?_⟩
        · intro _; exact ⟨rfl, rfl, rfl⟩
        · intro hf; cases hf
  · rw [if_neg hp] at h
    cases h
    refine ⟨by simp_all, of_not_not hval, by omega, by omega, rfl, rfl, rfl, rfl,
      rfl, rfl, rfl, rfl, ?_, ?_⟩
    · intro _; exact ⟨rfl, rfl, rfl⟩
    · intro h0; exact absurd h0 hp

/-- Inversion of a successful `depositFunds`. -/
theorem depositFunds_ok_inv {s : RState} {c : Ctx} {o : Out}
    (h : depositFunds s c = Except.ok o) :
    c.sender = s.owner ∧ 0 < c.value ∧
    o.st = { s with houseBalance := s.houseBalance + c.value,
                    balance := s.balance + c.value } ∧
    o.events = [Event.FundsDeposited c.sender c.value] := by
  unfold depositFunds at h
  by_cases h1 : c.sender ≠ s.owner
  · rw [if_pos h1] at h; cases h
  rw [if_neg h1] at h
  by_cases h2 : ¬ 0 < c.value
  · rw [if_pos h2] at h; cases h
  rw [if_neg h2] at h
  cases h
  exact ⟨of_not_not h1, of_not_not h2, rfl, rfl⟩

/-- Inversion of a successful `withdrawFunds`. -/
theorem withdrawFunds_ok_inv {s : RState} {c : Ctx} {amount : Nat} {o : Out}
    (h : withdrawFunds s c amount = Except.ok o) :
    c.sender = s.owner ∧ amount ≤ s.houseBalance ∧ c.transferOk = true ∧
    o.st = { s with houseBalance := s.houseBalance - amount,
                    balance := s.balance - amount } ∧
    o.events = [Event.FundsWithdrawn s.owner amount] ∧
    o.calls = [⟨s.owner, amount, s.houseBalance - amount, true⟩] := by
  unfold withdrawFunds at h
  by_cases h1 : c.sender ≠ s.owner
  · rw [if_pos h1] at h; cases h
  rw [if_neg h1] at h
  by_cases h2 : ¬ amount ≤ s.houseBalance
  · rw [if_pos h2] at h; cases h
  rw [if_neg h2] at h
  by_cases h3 : ¬ c.transferOk
  · rw [if_pos h3] at h; cases h
  rw [if_neg h3] at h
  cases h
  exact ⟨of_not_not h1, of_not_not h2, by simpa using of_not_not h3, rfl, rfl, rfl⟩

/-- Inversion of a successful `pause()`. -/
theorem pauseFn_ok_inv {s : RState} {c : Ctx} {o : Out}
    (h : pauseFn s c = Except.ok o) :
    c.sender = s.owner ∧ s.paused = false ∧ o.st = { s with paused := true } := by
  unfold pauseFn at h
  by_cases h1 : c.sender ≠ s.owner
  · rw [if_pos h1] at h; cases h
  rw [if_neg h1] at h
  by_cases h2 : s.paused = true
  · rw [if_pos h2] at h; cases h
  rw [if_neg h2] at h
  cases h
  exact ⟨of_not_not h1, by simpa using h2, rfl⟩

/-- Inversion of a successful `unpause()`. -/
theorem unpauseFn_ok_inv {s : RState} {c : Ctx} {o : Out}
    (h : unpauseFn s c = Except.ok o) :
    c.sender = s.owner ∧ s.paused = true ∧ o.st = { s with paused := false } := by
  unfold unpauseFn at h
  by_cases h1 : c.sender ≠ s.owner
  · rw [if_pos h1] at h; cases h
  rw [if_neg h1] at h
  by_cases h2 : ¬ s.paused = true
  · rw [if_pos h2] at h; cases h
  rw [if_neg h2] at h
  cases h
  exact ⟨of_not_not h1, of_not_not h2, rfl⟩

/-- Inversion of a successful `emergencyWithdraw`. -/
theorem emergencyWithdraw_ok_inv {s : RState} {c : Ctx} {o : Out}
    (h : emergencyWithdraw s c = Except.ok o) :
    c.sender = s.owner ∧ s.paused = true ∧ c.transferOk = true ∧
    o.st = { s with houseBalance := 0, balance := 0 } ∧
    o.events = [Event.FundsWithdrawn s.owner s.balance] := by
  unfold emergencyWithdraw at h
  by_cases h1 : c.sender ≠ s.owner
  · rw [if_pos h1] at h; cases h
  rw [if_neg h1] at h
  by_cases h2 : ¬ s.paused = true
  · rw [if_pos h2] at h; cases h
  rw [if_neg h2] at h
  by_cases h3 : ¬ c.transferOk
  · rw [if_pos h3] at h; cases h
  rw [if_neg h3] at h
  cases h
  exact ⟨of_not_not h1, of_not_not h2, by simpa using of_not_not h3, rfl, rfl⟩

/-- Inversion of `receiveEther` (always succeeds). -/
theorem receiveEther_ok_inv {s : RState} {c : Ctx} {o : Out}
    (h : receiveEther s c = Except.ok o) :
    o.st = { s with houseBalance := s.houseBalance + c.value,
                    balance := s.balance + c.value } ∧
    o.events = [Event.FundsDeposited c.sender c.value] := by
  cases h
  exact ⟨rfl, rfl⟩

/-- Inversion of `fallbackEther` (always succeeds). -/
theorem fallbackEther_ok_inv {s : RState} {c : Ctx} {o : Out}
    (h : fallbackEther s c = Except.ok o) :
    o.st = { s with houseBalance := s.houseBalance + c.value,
                    balance := s.balance + c.value } ∧
    o.events = [Event.FundsDeposited c.sender c.value] := by
  cases h
  exact ⟨rfl, rfl⟩

/-- C5: `houseBalance` never exceeds the contract's held balance: it holds at
deployment (both zero) and is preserved by every public operation — deposit,
bare receive/fallback, commitSpin, revealSpin, quickSpin, withdrawFunds,
emergencyWithdraw, pause and unpause. -/
theorem house_balance_invariant :
    (∀ deployer, (initialState deployer).houseBalance ≤ (initialState deployer).balance) ∧
    (∀ s op c, s.houseBalance ≤ s.balance →
      (applyOp s op c).houseBalance ≤ (applyOp s op c).balance) := by
  refine ⟨fun d => Nat.le_refl 0, ?_⟩
  intro s op c hinv
  cases hd : dispatch s op c with
  | error e =>
    have happ : applyOp s op c = s := by unfold applyOp; rw [hd]
    rw [happ]
    exact hinv
  | ok o =>
    have happ : applyOp s op c = o.st := by unfold applyOp; rw [hd]
    rw [happ]
    cases op with
    | deposit =>
        obtain ⟨-, -, hst, -⟩ := depositFunds_ok_inv hd
        have h1 : o.st.houseBalance = s.houseBalance + c.value := by rw [hst]
        have h2 : o.st.balance = s.balance + c.value := by rw [hst]
        omega
    | withdraw amount =>
        obtain ⟨-, hle, -, hst, -, -⟩ := withdrawFunds_ok_inv hd
        have h1 : o.st.houseBalance = s.houseBalance - amount := by rw [hst]
        have h2 : o.st.balance = s.balance - amount := by rw [hst]
        omega
    | commit secretHash =>
        obtain ⟨-, -, -, -, -, hst⟩ := commitSpin_ok_inv hd
        have h1 : o.st.houseBalance = s.houseBalance + c.value := by rw [hst]
        have h2 : o.st.balance = s.balance + c.value := by rw [hst]
        omega
    | reveal secret =>
        obtain ⟨-, -, -, -, -, -, -, -, -, -, -, -, -, hzero, hpos⟩ := revealSpin_ok_inv hd
        rcases Nat.eq_zero_or_pos o.ret with h0 | hgt
        · obtain ⟨e1, e2, -⟩ := hzero h0
          omega
        · obtain ⟨hle, htrue, hfalse⟩ := hpos hgt
          cases hT : c.transferOk
          · obtain ⟨e1, e2, -⟩ := hfalse hT
            omega
          · obtain ⟨e1, e2, -⟩ := htrue hT
            omega
    | quick =>
        obtain ⟨-, -, -, -, -, -, -, -, -, -, -, -, hzero, hpos⟩ := quickSpin_ok_inv hd
        rcases Nat.eq_zero_or_pos o.ret with h0 | hgt
        · obtain ⟨e1, e2, -⟩ := hzero h0
          omega
        · obtain ⟨hle, htrue, hfalse⟩ := hpos hgt
          cases hT : c.transferOk
          · obtain ⟨e1, e2, -⟩ := hfalse hT
            omega
          · obtain ⟨e1, e2, -⟩ := htrue hT
            omega
    | pauseOp =>
        obtain ⟨-, -, hst⟩ := pauseFn_ok_inv hd
        have h1 : o.st.houseBalance = s.houseBalance := by rw [hst]
        have h2 : o.st.balance = s.balance := by rw [hst]
        omega
    | unpauseOp =>
        obtain ⟨-, -, hst⟩ := unpauseFn_ok_inv hd
        have h1 : o.st.houseBalance = s.houseBalance := by rw [hst]
        have h2 : o.st.balance = s.balance := by rw [hst]
        omega
    | emergency =>
        obtain ⟨-, -, -, hst, -⟩ := emergencyWithdraw_ok_inv hd
        have h1 : o.st.houseBalance = 0 := by rw [hst]
        omega
    | receiveOp =>
        obtain ⟨hst, -⟩ := receiveEther_ok_inv hd
        have h1 : o.st.houseBalance = s.houseBalance + c.value := by rw [hst]
        have h2 : o.st.balance = s.balance + c.value := by rw [hst]
        omega
    | fallbackOp =>
        obtain ⟨hst, -⟩ := fallbackEther_ok_inv hd
        have h1 : o.st.houseBalance = s.houseBalance + c.value := by rw [hst]
        have h2 : o.st.balance = s.balance + c.value := by rw [hst]
        omega

/-- C5 witness: the invariant at deployment and across a concrete bare
transfer into a freshly deployed contract. -/
theorem house_balance_invariant_witness :
    (initialState 0).houseBalance ≤ (initialState 0).balance ∧
    (applyOp (initialState 0) Op.receiveOp ⟨2, 5, 0, 0, 0, true⟩).houseBalance
      ≤ (applyOp (initialState 0) Op.receiveOp ⟨2, 5, 0, 0, 0, true⟩).balance :=
  ⟨house_balance_invariant.1 0,
   house_balance_invariant.2 (initialState 0) Op.receiveOp ⟨2, 5, 0, 0, 0, true⟩
     (by decide)⟩

/-- A mapping value never decreases when the key's entry is bumped by `a`. -/
theorem le_upd_add (m : Nat → Nat) (k p a : Nat) : m p ≤ upd m k (m k + a) p := by
  by_cases hp : p = k
  · subst hp; rw [upd_same]; omega
  · rw [upd_ne _ _ _ _ hp]

/-- C9: for every player, cumulative spin count and cumulative winnings are
monotonically non-decreasing across every public operation, and they are left
exactly unchanged by deposit, withdraw, commit, pause and unpause (they are
updated only on successful resolution in `revealSpin`/`quickSpin`). -/
theorem player_stats_monotone :
    (∀ s op c p, s.playerTotalSpins p ≤ (applyOp s op c).playerTotalSpins p ∧
       s.playerTotalWins p ≤ (applyOp s op c).playerTotalWins p) ∧
    (∀ s c amount secretHash,
       (applyOp s Op.deposit c).playerTotalSpins = s.playerTotalSpins ∧
       (applyOp s Op.deposit c).playerTotalWins = s.playerTotalWins ∧
       (applyOp s (Op.withdraw amount) c).playerTotalSpins = s.playerTotalSpins ∧
       (applyOp s (Op.withdraw amount) c).playerTotalWins = s.playerTotalWins ∧
       (applyOp s (Op.commit secretHash) c).playerTotalSpins = s.playerTotalSpins ∧
       (applyOp s (Op.commit secretHash) c).playerTotalWins = s.playerTotalWins ∧
       (applyOp s Op.pauseOp c).playerTotalSpins = s.playerTotalSpins ∧
       (applyOp s Op.pauseOp c).playerTotalWins = s.playerTotalWins ∧
       (applyOp s Op.unpauseOp c).playerTotalSpins = s.playerTotalSpins ∧
       (applyOp s Op.unpauseOp c).playerTotalWins = s.playerTotalWins) := by
  constructor
  · intro s op c p
    cases hd : dispatch s op c with
    | error e =>
      have happ : applyOp s op c = s := by unfold applyOp; rw [hd]
      rw [happ]
      exact ⟨Nat.le_refl _, Nat.le_refl _⟩
    | ok o =>
      have happ : applyOp s op c = o.st := by unfold applyOp; rw [hd]
      rw [happ]
      cases op with
      | deposit =>
          obtain ⟨-, -, hst, -⟩ := depositFunds_ok_inv hd
          constructor <;> rw [hst]
      | withdraw amount =>
          obtain ⟨-, -, -, hst, -, -⟩ := withdrawFunds_ok_inv hd
          constructor <;> rw [hst]
      | commit secretHash =>
          obtain ⟨-, -, -, -, -, hst⟩ := commitSpin_ok_inv hd
          constructor <;> rw [hst]
      | reveal secret =>
          obtain ⟨-, -, -, -, -, -, -, -, -, -, -, h12, -, hzero, hpos⟩ :=
            revealSpin_ok_inv hd
          refine ⟨by rw [h12]; exact le_upd_add _ _ _ _, ?_⟩
          rcases Nat.eq_zero_or_pos o.ret with h0 | hgt
          · obtain ⟨-, -, hw⟩ := hzero h0
            rw [hw]
          · obtain ⟨-, htrue, hfalse⟩ := hpos hgt
            cases hT : c.transferOk
            · obtain ⟨-, -, hw⟩ := hfalse hT
              rw [hw]
            · obtain ⟨-, -, hw⟩ := htrue hT
              rw [hw]; exact le_upd_add _ _ _ _
      | quick =>
          obtain ⟨-, -, -, -, -, -, -, -, -, -, h11, -, hzero, hpos⟩ :=
            quickSpin_ok_inv hd
          refine ⟨by rw [h11]; exact le_upd_add _ _ _ _, ?_⟩
          rcases Nat.eq_zero_or_pos o.ret with h0 | hgt
          · obtain ⟨-, -, hw⟩ := hzero h0
            rw [hw]
          · obtain ⟨-, htrue, hfalse⟩ := hpos hgt
            cases hT : c.transferOk
            · obtain ⟨-, -, hw⟩ := hfalse hT
              rw [hw]
            · obtain ⟨-, -, hw⟩ := htrue hT
              rw [hw]; exact le_upd_add _ _ _ _
      | pauseOp =>
          obtain ⟨-, -, hst⟩ := pauseFn_ok_inv hd
          constructor <;> rw [hst]
      | unpauseOp =>
          obtain ⟨-, -, hst⟩ := unpauseFn_ok_inv hd
          constructor <;> rw [hst]
      | emergency =>
          obtain ⟨-, -, -, hst, -⟩ := emergencyWithdraw_ok_inv hd
          constructor <;> rw [hst]
      | receiveOp =>
          obtain ⟨hst, -⟩ := receiveEther_ok_inv hd
          constructor <;> rw [hst]
      | fallbackOp =>
          obtain ⟨hst, -⟩ := fallbackEther_ok_inv hd
          constructor <;> rw [hst]
  · intro s c amount secretHash
    have gen : ∀ op, (∀ o, dispatch s op c = Except.ok o →
        o.st.playerTotalSpins = s.playerTotalSpins ∧
        o.st.playerTotalWins = s.playerTotalWins) →
        (applyOp s op c).playerTotalSpins = s.playerTotalSpins ∧
        (applyOp s op c).playerTotalWins = s.playerTotalWins := by
      intro op hok
      cases hd : dispatch s op c with
      | error e =>
        have happ : applyOp s op c = s := by unfold applyOp; rw [hd]
        rw [happ]; exact ⟨rfl, rfl⟩
      | ok o =>
        have happ : applyOp s op c = o.st := by unfold applyOp; rw [hd]
        rw [happ]; exact hok o hd
    have hdep := gen Op.deposit (fun o ho => by
      obtain ⟨-, -, hst, -⟩ := depositFunds_ok_inv ho
      exact ⟨by rw [hst], by rw [hst]⟩)
    have hwd := gen (Op.withdraw amount) (fun o ho => by
      obtain ⟨-, -, -, hst, -, -⟩ := withdrawFunds_ok_inv ho
      exact ⟨by rw [hst], by rw [hst]⟩)
    have hcom := gen (Op.commit secretHash) (fun o ho => by
      obtain ⟨-, -, -, -, -, hst⟩ := commitSpin_ok_inv ho
      exact ⟨by rw [hst], by rw [hst]⟩)
    have hpa := gen Op.pauseOp (fun o ho => by
      obtain ⟨-, -, hst⟩ := pauseFn_ok_inv ho
      exact ⟨by rw [hst], by rw [hst]⟩)
    have hup := gen Op.unpauseOp (fun o ho => by
      obtain ⟨-, -, hst⟩ := unpauseFn_ok_inv ho
      exact ⟨by rw [hst], by rw [hst]⟩)
    exact ⟨hdep.1, hdep.2, hwd.1, hwd.2, hcom.1, hcom.2, hpa.1, hpa.2, hup.1, hup.2⟩

/-- C7: admission control checks run in the stated order — exact payment
first (regardless of all other state), then solvency, then cooldown (with the
remaining wait in the error), and for `commitSpin` only, the no-overlap check
last; the cooldown timestamp is set by `commitSpin` and `quickSpin` at the
start of the spin and never by `revealSpin`. -/
theorem admission_order_spec :
    (∀ s c secretHash, s.paused = false → c.value ≠ SPIN_COST →
       commitSpin s c secretHash
         = Except.error (Err.IncorrectBetAmount c.value SPIN_COST) ∧
       quickSpin s c = Except.error (Err.IncorrectBetAmount c.value SPIN_COST)) ∧
    (∀ s c secretHash, s.paused = false → c.value = SPIN_COST →
       s.houseBalance < MAX_PRIZE →
       commitSpin s c secretHash
         = Except.error (Err.InsufficientHouseBalance MAX_PRIZE s.houseBalance) ∧
       quickSpin s c
         = Except.error (Err.InsufficientHouseBalance MAX_PRIZE s.houseBalance)) ∧
    (∀ s c secretHash, s.paused = false → c.value = SPIN_COST →
       MAX_PRIZE ≤ s.houseBalance →
       c.timestamp < s.lastSpinTime c.sender + COOLDOWN_PERIOD →
       commitSpin s c secretHash = Except.error
         (Err.CooldownNotExpired (s.lastSpinTime c.sender + COOLDOWN_PERIOD - c.timestamp)) ∧
       quickSpin s c = Except.error
         (Err.CooldownNotExpired (s.lastSpinTime c.sender + COOLDOWN_PERIOD - c.timestamp))) ∧
    (∀ s c secretHash, s.paused = false → c.value = SPIN_COST →
       MAX_PRIZE ≤ s.houseBalance →
       s.lastSpinTime c.sender + COOLDOWN_PERIOD ≤ c.timestamp →
       (s.commits c.sender).revealed = false → (s.commits c.sender).blockNumber ≠ 0 →
       commitSpin s c secretHash = Except.error Err.PreviousSpinNotRevealed) ∧
    (∀ s c secretHash o, commitSpin s c secretHash = Except.ok o →
       o.st.lastSpinTime c.sender = c.timestamp) ∧
    (∀ s c o, quickSpin s c = Except.ok o →
       o.st.lastSpinTime c.sender = c.timestamp) ∧
    (∀ s c secret o, revealSpin s c secret = Except.ok o →
       o.st.lastSpinTime = s.lastSpinTime) := by
  refine ⟨?_, ?_, ?_, ?_, ?_, ?_, ?_⟩
  · intro s c secretHash hpause hval
    constructor
    · unfold commitSpin
      rw [if_neg (by simp [hpause]), if_pos hval]
    · unfold quickSpin
      rw [if_neg (by simp [hpause]), if_pos hval]
  · intro s c secretHash hpause hval hhb
    constructor
    · unfold commitSpin
      rw [if_neg (by simp [hpause]), if_neg (by simp [hval]), if_pos hhb]
    · unfold quickSpin
      rw [if_neg (by simp [hpause]), if_neg (by simp [hval]), if_pos hhb]
  · intro s c secretHash hpause hval hhb hcool
    constructor
    · unfold commitSpin
      rw [if_neg (by simp [hpause]), if_neg (by simp [hval]), if_neg (by omega),
        if_pos hcool]
    · unfold quickSpin
      rw [if_neg (by simp [hpause]), if_neg (by simp [hval]), if_neg (by omega),
        if_pos hcool]
  · intro s c secretHash hpause hval hhb hcool hrev hbn
    unfold commitSpin
    rw [if_neg (by simp [hpause]), if_neg (by simp [hval]), if_neg (by omega),
      if_neg (by omega), if_pos (by simp [hrev, hbn])]
  · intro s c secretHash o h
    obtain ⟨-, -, -, -, -, hst⟩ := commitSpin_ok_inv h
    rw [hst]
    exact upd_same _ _ _
  · intro s c o h
    obtain ⟨-, -, -, -, -, -, h7, -⟩ := quickSpin_ok_inv h
    rw [h7]
    exact upd_same _ _ _
  · intro s c secret o h
    obtain ⟨-, -, -, -, -, -, -, h8, -⟩ := revealSpin_ok_inv h
    exact h8

/-- C7 witness: each admission error observed on a concrete state, and the
cooldown stamp set by a concrete commit. -/
theorem admission_order_spec_witness :
    commitSpin { initialState 0 with houseBalance := MAX_PRIZE, balance := MAX_PRIZE }
        ⟨1, 5, 100, 10, 0, true⟩ (B32.secretHash 7)
      = Except.error (Err.IncorrectBetAmount 5 SPIN_COST) ∧
    quickSpin (initialState 0) ⟨1, SPIN_COST, 100, 10, 0, true⟩
      = Except.error (Err.InsufficientHouseBalance MAX_PRIZE 0) ∧
    commitSpin { initialState 0 with houseBalance := MAX_PRIZE, balance := MAX_PRIZE }
        ⟨1, SPIN_COST, 10, 10, 0, true⟩ (B32.secretHash 7)
      = Except.error (Err.CooldownNotExpired 20) ∧
    commitSpin { initialState 0 with
        houseBalance := MAX_PRIZE
        balance := MAX_PRIZE
        commits := upd (fun _ => SpinCommit.default) 1 ⟨B32.zero, 3, SPIN_COST, false⟩ }
        ⟨1, SPIN_COST, 100, 10, 0, true⟩ (B32.secretHash 7)
      = Except.error Err.PreviousSpinNotRevealed ∧
    ∃ o, commitSpin { initialState 0 with houseBalance := MAX_PRIZE, balance := MAX_PRIZE }
        ⟨1, SPIN_COST, 100, 10, 0, true⟩ (B32.secretHash 7) = Except.ok o ∧
      o.st.lastSpinTime 1 = 100 := by
  refine ⟨?_, ?_, ?_, ?_, ?_⟩
  · exact (admission_order_spec.1
      { initialState 0 with houseBalance := MAX_PRIZE, balance := MAX_PRIZE }
      ⟨1, 5, 100, 10, 0, true⟩ (B32.secretHash 7) rfl (by decide)).1
  · exact (admission_order_spec.2.1 (initialState 0)
      ⟨1, SPIN_COST, 100, 10, 0, true⟩ (B32.secretHash 7) rfl rfl (by decide)).2
  · exact (admission_order_spec.2.2.1
      { initialState 0 with houseBalance := MAX_PRIZE, balance := MAX_PRIZE }
      ⟨1, SPIN_COST, 10, 10, 0, true⟩ (B32.secretHash 7) rfl rfl (by decide) (by decide)).1
  · exact admission_order_spec.2.2.2.1
      { initialState 0 with
        houseBalance := MAX_PRIZE
        balance := MAX_PRIZE
        commits := upd (fun _ => SpinCommit.default) 1 ⟨B32.zero, 3, SPIN_COST, false⟩ }
      ⟨1, SPIN_COST, 100, 10, 0, true⟩ (B32.secretHash 7) rfl rfl (by decide) (by decide)
      (by decide) (by decide)
  · refine ⟨_, rfl, ?_⟩
    exact admission_order_spec.2.2.2.2.1
      { initialState 0 with houseBalance := MAX_PRIZE, balance := MAX_PRIZE }
      ⟨1, SPIN_COST, 100, 10, 0, true⟩ (B32.secretHash 7) _ rfl

/-- C8: `withdrawFunds` is owner-only and requires `amount <= houseBalance`;
it decrements `houseBalance` before the value transfer (the recorded external
call already sees the decremented balance); a transfer failure fails the
whole call atomically with the state unchanged, and a withdrawal exceeding
`houseBalance` fails with the state unchanged. -/
theorem withdraw_funds_spec :
    (∀ s c amount, c.sender ≠ s.owner →
       withdrawFunds s c amount = Except.error Err.NotOwner ∧
       applyOp s (Op.withdraw amount) c = s) ∧
    (∀ s c amount, c.sender = s.owner → s.houseBalance < amount →
       withdrawFunds s c amount = Except.error Err.InsufficientBalanceStr ∧
       applyOp s (Op.withdraw amount) c = s) ∧
    (∀ s c amount, c.sender = s.owner → amount ≤ s.houseBalance →
       c.transferOk = false →
       withdrawFunds s c amount = Except.error Err.TransferFailed ∧
       applyOp s (Op.withdraw amount) c = s) ∧
    (∀ s c amount o, withdrawFunds s c amount = Except.ok o →
       c.sender = s.owner ∧ amount ≤ s.houseBalance ∧
       o.st.houseBalance = s.houseBalance - amount ∧
       o.st.balance = s.balance - amount ∧
       o.calls = [⟨s.owner, amount, s.houseBalance - amount, true⟩]) := by
  refine ⟨?_, ?_, ?_, ?_⟩
  · intro s c amount hown
    have herr : withdrawFunds s c amount = Except.error Err.NotOwner := by
      unfold withdrawFunds
      rw [if_pos hown]
    refine ⟨herr, ?_⟩
    have hd : dispatch s (Op.withdraw amount) c = Except.error Err.NotOwner := herr
    unfold applyOp
    rw [hd]
  · intro s c amount hown hlt
    have herr : withdrawFunds s c amount = Except.error Err.InsufficientBalanceStr := by
      unfold withdrawFunds
      rw [if_neg (by simp [hown]), if_pos (by omega)]
    refine ⟨herr, ?_⟩
    have hd : dispatch s (Op.withdraw amount) c = Except.error Err.InsufficientBalanceStr := herr
    unfold applyOp
    rw [hd]
  · intro s c amount hown hle hfail
    have herr : withdrawFunds s c amount = Except.error Err.TransferFailed := by
      unfold withdrawFunds
      rw [if_neg (by simp [hown]), if_neg (by omega), if_pos (by simp [hfail])]
    refine ⟨herr, ?_⟩
    have hd : dispatch s (Op.withdraw amount) c = Except.error Err.TransferFailed := herr
    unfold applyOp
    rw [hd]
  · intro s c amount o h
    obtain ⟨h1, h2, -, hst, -, hcalls⟩ := withdrawFunds_ok_inv h
    exact ⟨h1, h2, by rw [hst], by rw [hst], hcalls⟩

/-- C8 witness: a non-owner withdrawal, an over-balance withdrawal and a
failed-transfer withdrawal all leave a concrete state unchanged, and a
successful concrete withdrawal records the transfer after the decrement. -/
theorem withdraw_funds_spec_witness :
    (withdrawFunds { initialState 0 with houseBalance := 100, balance := 100 }
        ⟨3, 0, 0, 0, 0, true⟩ 5 = Except.error Err.NotOwner ∧
      applyOp { initialState 0 with houseBalance := 100, balance := 100 }
        (Op.withdraw 5) ⟨3, 0, 0, 0, 0, true⟩
        = { initialState 0 with houseBalance := 100, balance := 100 }) ∧
    (withdrawFunds { initialState 0 with houseBalance := 100, balance := 100 }
        ⟨0, 0, 0, 0, 0, true⟩ 200 = Except.error Err.InsufficientBalanceStr ∧
      applyOp { initialState 0 with houseBalance := 100, balance := 100 }
        (Op.withdraw 200) ⟨0, 0, 0, 0, 0, true⟩
        = { initialState 0 with houseBalance := 100, balance := 100 }) ∧
    (withdrawFunds { initialState 0 with houseBalance := 100, balance := 100 }
        ⟨0, 0, 0, 0, 0, false⟩ 5 = Except.error Err.TransferFailed ∧
      applyOp { initialState 0 with houseBalance := 100, balance := 100 }
        (Op.withdraw 5) ⟨0, 0, 0, 0, 0, false⟩
        = { initialState 0 with houseBalance := 100, balance := 100 }) ∧
    (∃ o, withdrawFunds { initialState 0 with houseBalance := 100, balance := 100 }
        ⟨0, 0, 0, 0, 0, true⟩ 5 = Except.ok o ∧
      o.st.houseBalance = 95 ∧ o.calls = [⟨0, 5, 95, true⟩]) := by
  refine ⟨?_, ?_, ?_, ?_⟩
  · exact withdraw_funds_spec.1 { initialState 0 with houseBalance := 100, balance := 100 }
      ⟨3, 0, 0, 0, 0, true⟩ 5 (by decide)
  · exact withdraw_funds_spec.2.1
      { initialState 0 with houseBalance := 100, balance := 100 }
      ⟨0, 0, 0, 0, 0, true⟩ 200 rfl (by decide)
  · exact withdraw_funds_spec.2.2.1
      { initialState 0 with houseBalance := 100, balance := 100 }
      ⟨0, 0, 0, 0, 0, false⟩ 5 rfl (by decide) rfl
  · refine ⟨_, rfl, ?_, ?_⟩
    · exact (withdraw_funds_spec.2.2.2
        { initialState 0 with houseBalance := 100, balance := 100 }
        ⟨0, 0, 0, 0, 0, true⟩ 5 _ rfl).2.2.1
    · exact (withdraw_funds_spec.2.2.2
        { initialState 0 with houseBalance := 100, balance := 100 }
        ⟨0, 0, 0, 0, 0, true⟩ 5 _ rfl).2.2.2.2

/-- Forward evaluation of `quickSpin`: when admission control passes, the
call succeeds (the payout re-verification is covered by the admission
solvency check in the same transaction). -/
theorem quickSpin_ok_of {s : RState} {c : Ctx}
    (hpaused : s.paused = false) (hval : c.value = SPIN_COST)
    (hhb : MAX_PRIZE ≤ s.houseBalance)
    (hcool : s.lastSpinTime c.sender + COOLDOWN_PERIOD ≤ c.timestamp) :
    ∃ o, quickSpin s c = Except.ok o := by
  unfold quickSpin
  rw [if_neg (by simp [hpaused]), if_neg (by simp [hval]), if_neg (by omega),
    if_neg (by omega)]
  dsimp only
  by_cases hp : 0 < calculatePrize (generateQuickRandomNumber c.entropy)
  · rw [if_pos hp, if_neg (by
      have := calculatePrize_le_max (generateQuickRandomNumber c.entropy)
      omega)]
    cases hT : c.transferOk
    · simp only [Bool.false_eq_true, if_false]
      exact ⟨_, rfl⟩
    · simp only [if_true]
      exact ⟨_, rfl⟩
  · rw [if_neg hp]
    exact ⟨_, rfl⟩

/-- `revealSpin` succeeds exactly when its guards pass and, for a positive
prize, the house can cover it; none of this depends on the transfer
outcome. -/
theorem revealSpin_isOk_iff (s : RState) (c : Ctx) (secret : Nat) :
    (∃ o, revealSpin s c secret = Except.ok o) ↔
      (s.paused = false ∧ (s.commits c.sender).blockNumber ≠ 0 ∧
       (s.commits c.sender).revealed = false ∧
       (s.commits c.sender).blockNumber + REVEAL_DELAY ≤ c.blockNumber ∧
       B32.commitH (B32.secretHash secret) c.sender (s.lastSpinTime c.sender)
         (s.nonce - 1) = (s.commits c.sender).commitHash ∧
       (0 < calculatePrize (generateRandomNumber c.entropy) →
         calculatePrize (generateRandomNumber c.entropy) ≤ s.houseBalance)) := by
  constructor
  · rintro ⟨o, ho⟩
    obtain ⟨h1, h2, h3, h4, h5, h6, -, -, -, -, -, -, -, -, hpos⟩ := revealSpin_ok_inv ho
    refine ⟨h1, h2, h3, h4, h5, ?_⟩
    intro hp
    rw [← h6] at hp ⊢
    exact (hpos hp).1
  · rintro ⟨h1, h2, h3, h4, h5, h6⟩
    have hsolv : calculatePrize (generateRandomNumber c.entropy) ≤ s.houseBalance := by
      rcases Nat.eq_zero_or_pos (calculatePrize (generateRandomNumber c.entropy)) with h0 | hp
      · omega
      · exact h6 hp
    obtain ⟨o, ho, -, -⟩ := revealSpin_ok_of h1 h2 h3 h4 h5 hsolv
    exact ⟨o, ho⟩

/-- `quickSpin` succeeds exactly when admission control passes; none of this
depends on the transfer outcome. -/
theorem quickSpin_isOk_iff (s : RState) (c : Ctx) :
    (∃ o, quickSpin s c = Except.ok o) ↔
      (s.paused = false ∧ c.value = SPIN_COST ∧ MAX_PRIZE ≤ s.houseBalance ∧
       s.lastSpinTime c.sender + COOLDOWN_PERIOD ≤ c.timestamp) := by
  constructor
  · rintro ⟨o, ho⟩
    obtain ⟨h1, h2, h3, h4, -⟩ := quickSpin_ok_inv ho
    exact ⟨h1, h2, h3, h4⟩
  · rintro ⟨h1, h2, h3, h4⟩
    exact quickSpin_ok_of h1 h2 h3 h4

/-- C4: in both `revealSpin` and `quickSpin`, when the resolved prize is
nonzero and its transfer fails, `houseBalance` and the player's cumulative
winnings are restored to their pre-payout values, yet the spin still
resolves: the commit stays revealed (reveal path), the spin counter is
incremented, the resolution event is emitted, and whether the call succeeds
never depends on the transfer outcome; the spin counter increments on every
successful resolution. -/
theorem transfer_failure_resolution_spec :
    (∀ s c secret o, revealSpin s c secret = Except.ok o → 0 < o.ret →
       c.transferOk = false →
       o.st.houseBalance = s.houseBalance ∧
       o.st.playerTotalWins = s.playerTotalWins ∧
       (o.st.commits c.sender).revealed = true ∧
       o.st.playerTotalSpins c.sender = s.playerTotalSpins c.sender + 1 ∧
       o.events = [Event.SpinRevealed c.sender (s.commits c.sender).betAmount o.ret
         (generateRandomNumber c.entropy) c.timestamp]) ∧
    (∀ s c o, quickSpin s c = Except.ok o → 0 < o.ret → c.transferOk = false →
       o.st.houseBalance = s.houseBalance + c.value ∧
       o.st.playerTotalWins = s.playerTotalWins ∧
       o.st.playerTotalSpins c.sender = s.playerTotalSpins c.sender + 1 ∧
       o.events = [Event.SpinRevealed c.sender c.value o.ret
         (generateQuickRandomNumber c.entropy) c.timestamp]) ∧
    (∀ s c secret b, (∃ o, revealSpin s c secret = Except.ok o)
       ↔ (∃ o, revealSpin s { c with transferOk := b } secret = Except.ok o)) ∧
    (∀ s c b, (∃ o, quickSpin s c = Except.ok o)
       ↔ (∃ o, quickSpin s { c with transferOk := b } = Except.ok o)) ∧
    (∀ s c secret o, revealSpin s c secret = Except.ok o →
       o.st.playerTotalSpins c.sender = s.playerTotalSpins c.sender + 1) ∧
    (∀ s c o, quickSpin s c = Except.ok o →
       o.st.playerTotalSpins c.sender = s.playerTotalSpins c.sender + 1) := by
  refine ⟨?_, ?_, ?_, ?_, ?_, ?_⟩
  · intro s c secret o h hp hT
    obtain ⟨-, -, -, -, -, -, h7, -, -, -, -, h12, h13, -, hpos⟩ := revealSpin_ok_inv h
    obtain ⟨-, -, hfail⟩ := hpos hp
    obtain ⟨e1, -, e3⟩ := hfail hT
    refine ⟨e1, e3, ?_, ?_, h13⟩
    · rw [h7, upd_same]
    · rw [h12, upd_same]
  · intro s c o h hp hT
    obtain ⟨-, -, -, -, -, -, -, -, -, -, h11, h12, -, hpos⟩ := quickSpin_ok_inv h
    obtain ⟨-, -, hfail⟩ := hpos hp
    obtain ⟨e1, -, e3⟩ := hfail hT
    refine ⟨e1, e3, ?_, h12⟩
    rw [h11, upd_same]
  · intro s c secret b
    exact (revealSpin_isOk_iff s c secret).trans
      (revealSpin_isOk_iff s { c with transferOk := b } secret).symm
  · intro s c b
    exact (quickSpin_isOk_iff s c).trans
      (quickSpin_isOk_iff s { c with transferOk := b }).symm
  · intro s c secret o h
    obtain ⟨-, -, -, -, -, -, -, -, -, -, -, h12, -⟩ := revealSpin_ok_inv h
    rw [h12, upd_same]
  · intro s c o h
    obtain ⟨-, -, -, -, -, -, -, -, -, -, h11, -⟩ := quickSpin_ok_inv h
    rw [h11, upd_same]

/-- C4 witness: a concrete pending commit revealed with a winning draw while
the transfer fails — balances and winnings restored, commit consumed, spin
counted, event emitted. -/
theorem transfer_failure_resolution_spec_witness :
    ∃ o, revealSpin { initialState 0 with
        houseBalance := MAX_PRIZE
        balance := MAX_PRIZE
        nonce := 1
        commits := upd (fun _ => SpinCommit.default) 1
          ⟨B32.commitH (B32.secretHash 7) 1 100 0, 10, SPIN_COST, false⟩
        lastSpinTime := upd (fun _ => 0) 1 100 }
        ⟨1, 0, 200, 12, 900, false⟩ 7 = Except.ok o ∧
      o.st.houseBalance = MAX_PRIZE ∧
      o.st.playerTotalWins = (fun _ => 0) ∧
      (o.st.commits 1).revealed = true ∧
      o.st.playerTotalSpins 1 = 1 ∧
      o.events = [Event.SpinRevealed 1 SPIN_COST PRIZE_2 900 200] := by
  refine ⟨_, rfl, ?_⟩
  have h := transfer_failure_resolution_spec.1 { initialState 0 with
      houseBalance := MAX_PRIZE
      balance := MAX_PRIZE
      nonce := 1
      commits := upd (fun _ => SpinCommit.default) 1
        ⟨B32.commitH (B32.secretHash 7) 1 100 0, 10, SPIN_COST, false⟩
      lastSpinTime := upd (fun _ => 0) 1 100 }
    ⟨1, 0, 200, 12, 900, false⟩ 7 _ rfl (by decide) rfl
  obtain ⟨e1, e2, e3, e4, e5⟩ := h
  exact ⟨e1.trans rfl, e2.trans rfl, e3, e4.trans rfl, e5.trans rfl⟩

/-- The global nonce never decreases under any operation. -/
theorem applyOp_nonce_mono (s : RState) (op : Op) (c : Ctx) :
    s.nonce ≤ (applyOp s op c).nonce := by
  cases hd : dispatch s op c with
  | error e =>
    have happ : applyOp s op c = s := by unfold applyOp; rw [hd]
    rw [happ]
  | ok o =>
    have happ : applyOp s op c = o.st := by unfold applyOp; rw [hd]
    rw [happ]
    cases op with
    | deposit =>
        obtain ⟨-, -, hst, -⟩ := depositFunds_ok_inv hd
        rw [hst]
    | withdraw amount =>
        obtain ⟨-, -, -, hst, -, -⟩ := withdrawFunds_ok_inv hd
        rw [hst]
    | commit secretHash =>
        obtain ⟨-, -, -, -, -, hst⟩ := commitSpin_ok_inv hd
        rw [hst]
        exact Nat.le_succ _
    | reveal secret =>
        obtain ⟨-, -, -, -, -, -, -, -, h9, -⟩ := revealSpin_ok_inv hd
        rw [h9]
    | quick =>
        obtain ⟨-, -, -, -, -, -, -, h8, -⟩ := quickSpin_ok_inv hd
        rw [h8]
        exact Nat.le_succ _
    | pauseOp =>
        obtain ⟨-, -, hst⟩ := pauseFn_ok_inv hd
        rw [hst]
    | unpauseOp =>
        obtain ⟨-, -, hst⟩ := unpauseFn_ok_inv hd
        rw [hst]
    | emergency =>
        obtain ⟨-, -, -, hst, -⟩ := emergencyWithdraw_ok_inv hd
        rw [hst]
    | receiveOp =>
        obtain ⟨hst, -⟩ := receiveEther_ok_inv hd
        rw [hst]
    | fallbackOp =>
        obtain ⟨hst, -⟩ := fallbackEther_ok_inv hd
        rw [hst]

/-- The global nonce never decreases along a run. -/
theorem runOps_nonce_mono (s : RState) (L : List (Op × Ctx)) :
    s.nonce ≤ (runOps s L).nonce := by
  induction L generalizing s with
  | nil => exact Nat.le_refl _
  | cons p L ih =>
      exact Nat.le_trans (applyOp_nonce_mono s p.1 p.2) (ih (applyOp s p.1 p.2))

/-- A successful `commitSpin` or `quickSpin` advances the nonce by one. -/
theorem spin_step_nonce (s : RState) (op : Op) (c : Ctx)
    (hspin : isSpinOp op) (hok : okStep s op c = true) :
    (applyOp s op c).nonce = s.nonce + 1 := by
  cases op with
  | commit secretHash =>
      cases hd : dispatch s (Op.commit secretHash) c with
      | error e =>
          have hfalse : okStep s (Op.commit secretHash) c = false := by
            unfold okStep; rw [hd]
          rw [hfalse] at hok
          cases hok
      | ok o =>
          have happ : applyOp s (Op.commit secretHash) c = o.st := by
            unfold applyOp; rw [hd]
          rw [happ]
          obtain ⟨-, -, -, -, -, hst⟩ := commitSpin_ok_inv hd
          rw [hst]
  | quick =>
      cases hd : dispatch s Op.quick c with
      | error e =>
          have hfalse : okStep s Op.quick c = false := by
            unfold okStep; rw [hd]
          rw [hfalse] at hok
          cases hok
      | ok o =>
          have happ : applyOp s Op.quick c = o.st := by
            unfold applyOp; rw [hd]
          rw [happ]
          obtain ⟨-, -, -, -, -, -, -, h8, -⟩ := quickSpin_ok_inv hd
          exact h8
  | deposit => exact hspin.elim
  | withdraw amount => exact hspin.elim
  | reveal secret => exact hspin.elim
  | pauseOp => exact hspin.elim
  | unpauseOp => exact hspin.elim
  | emergency => exact hspin.elim
  | receiveOp => exact hspin.elim
  | fallbackOp => exact hspin.elim

/-- A run containing a successful spin step strictly increases the nonce. -/
theorem interveningSpin_nonce_increases (s : RState) (L : List (Op × Ctx))
    (h : interveningSpin s L) : s.nonce < (runOps s L).nonce := by
  obtain ⟨pre, step, post, hL, hspin, hok⟩ := h
  subst hL
  have h1 : s.nonce ≤ (runOps s pre).nonce := runOps_nonce_mono s pre
  have h2 : (applyOp (runOps s pre) step.1 step.2).nonce = (runOps s pre).nonce + 1 :=
    spin_step_nonce _ _ _ hspin hok
  have h3 : (applyOp (runOps s pre) step.1 step.2).nonce
      ≤ (runOps (applyOp (runOps s pre) step.1 step.2) post).nonce :=
    runOps_nonce_mono _ _
  have h4 : runOps s (pre ++ step :: post)
      = runOps (applyOp (runOps s pre) step.1 step.2) post := by
    unfold runOps
    rw [List.foldl_append, List.foldl_cons]
  rw [h4]
  omega

/-- C2: a correct-secret reveal of a pending commit succeeds only if the
global nonce still equals its value immediately after the commit
(`cn + 1`, where `cn` was the nonce stored into the commit hash) and the
player's last-spin timestamp still equals the commit-time timestamp: the
expected commitment is recomputed from `nonce - 1` and the current
`s_lastSpinTime` rather than from the commit record, so any intervening
successful `commitSpin` (by any player) or `quickSpin` — each of which
advances the nonce — makes the correct-secret reveal fail the
commitment-match check with `InvalidSecret`. -/
theorem reveal_nonce_binding_spec
    (s2 : RState) (c : Ctx) (secret cts cn cbn bet : Nat)
    (hrec : s2.commits c.sender =
      ⟨B32.commitH (B32.secretHash secret) c.sender cts cn, cbn, bet, false⟩)
    (hcbn : cbn ≠ 0) (hpos : 0 < s2.nonce) :
    ((∃ o, revealSpin s2 c secret = Except.ok o) →
       s2.nonce = cn + 1 ∧ s2.lastSpinTime c.sender = cts) ∧
    (s2.paused = false → cbn + REVEAL_DELAY ≤ c.blockNumber →
       (s2.nonce ≠ cn + 1 ∨ s2.lastSpinTime c.sender ≠ cts) →
       revealSpin s2 c secret = Except.error Err.InvalidSecret) ∧
    (∀ s1 steps, s1.nonce = cn + 1 → s2 = runOps s1 steps →
       interveningSpin s1 steps → s2.nonce ≠ cn + 1) := by
  refine ⟨?_, ?_, ?_⟩
  · rintro ⟨o, ho⟩
    obtain ⟨-, -, -, -, h5, -⟩ := revealSpin_ok_inv ho
    have h5' : B32.commitH (B32.secretHash secret) c.sender (s2.lastSpinTime c.sender)
        (s2.nonce - 1) = B32.commitH (B32.secretHash secret) c.sender cts cn := by
      rw [h5, hrec]
    injection h5' with i1 i2 i3 i4
    exact ⟨by omega, i3⟩
  · intro hpause hlate hmis
    unfold revealSpin
    simp only [hrec]
    rw [if_neg (by simp [hpause]), if_neg hcbn, if_neg (by simp), if_neg (by omega),
      if_pos ?_]
    intro heq
    injection heq with i1 i2 i3 i4
    rcases hmis with hm | hm
    · omega
    · exact hm i3
  · intro s1 steps h1 h2 hint
    have hlt := interveningSpin_nonce_increases s1 steps hint
    rw [← h2] at hlt
    omega

/-- Concrete two-player trace for exercising the nonce binding: player 1
commits at block 10, then player 2 quick-spins. -/
def nonceTraceState : RState :=
  runOps (applyOp { initialState 0 with
      houseBalance := MAX_PRIZE + MAX_PRIZE
      balance := MAX_PRIZE + MAX_PRIZE }
    (Op.commit (B32.secretHash 7)) ⟨1, SPIN_COST, 100, 10, 0, true⟩)
    [(Op.quick, ⟨2, SPIN_COST, 200, 11, 5, true⟩)]

/-- C2 witness: after player 2's intervening quick-spin, player 1's
correct-secret reveal fails with `InvalidSecret`, and the nonce no longer
equals its post-commit value. -/
theorem reveal_nonce_binding_spec_witness :
    revealSpin nonceTraceState ⟨1, 0, 300, 20, 0, true⟩ 7
      = Except.error Err.InvalidSecret ∧
    nonceTraceState.nonce ≠ 0 + 1 := by
  constructor
  · exact (reveal_nonce_binding_spec nonceTraceState ⟨1, 0, 300, 20, 0, true⟩ 7 100 0 10
      SPIN_COST rfl (by decide) (by decide)).2.1 rfl (by decide) (Or.inl (by decide))
  · exact (reveal_nonce_binding_spec nonceTraceState ⟨1, 0, 300, 20, 0, true⟩ 7 100 0 10
      SPIN_COST rfl (by decide) (by decide)).2.2
      (applyOp { initialState 0 with
          houseBalance := MAX_PRIZE + MAX_PRIZE
          balance := MAX_PRIZE + MAX_PRIZE }
        (Op.commit (B32.secretHash 7)) ⟨1, SPIN_COST, 100, 10, 0, true⟩)
      [(Op.quick, ⟨2, SPIN_COST, 200, 11, 5, true⟩)]
      (by decide) rfl
      ⟨[], (Op.quick, ⟨2, SPIN_COST, 200, 11, 5, true⟩), [], rfl, trivial, by decide⟩

/-- C3 counterexample: with `houseBalance = MAX_PRIZE`, player 1's commit is
admitted (commit-time solvency check passes); the owner then withdraws
1.05 ether, leaving 0.05 ether; the matured correct-secret reveal draws 900
(prize 0.1 ether) and the payout-time re-verification
`houseBalance >= prize` fails, reverting the reveal — so an admitted spin is
not always payable and the re-verification can fail. -/
theorem spin_payout_solvency_counterexample :
    okStep { initialState 0 with houseBalance := MAX_PRIZE, balance := MAX_PRIZE }
      (Op.commit (B32.secretHash 7)) ⟨1, SPIN_COST, 100, 10, 0, true⟩ = true ∧
    okStep (applyOp { initialState 0 with houseBalance := MAX_PRIZE, balance := MAX_PRIZE }
        (Op.commit (B32.secretHash 7)) ⟨1, SPIN_COST, 100, 10, 0, true⟩)
      (Op.withdraw 1050000000000000000) ⟨0, 0, 150, 11, 0, true⟩ = true ∧
    revealSpin
      (applyOp (applyOp { initialState 0 with houseBalance := MAX_PRIZE, balance := MAX_PRIZE }
          (Op.commit (B32.secretHash 7)) ⟨1, SPIN_COST, 100, 10, 0, true⟩)
        (Op.withdraw 1050000000000000000) ⟨0, 0, 150, 11, 0, true⟩)
      ⟨1, 0, 200, 12, 900, true⟩ 7 = Except.error Err.InsufficientHouseBalancePayout :=
  ⟨rfl, rfl, rfl⟩

/-- C3 amended: for `quickSpin`, whose admission and payout happen in the
same transaction, the admission solvency check does guarantee payment:
every possible prize is covered by `houseBalance` at payout time and the
payout-time re-verification cannot fail (the call succeeds).  (For
`revealSpin` the admission check runs at commit time and `houseBalance` can
drop before the reveal, so its payout-time re-verification is load-bearing
and can fail, as the counterexample shows.) -/
theorem quickspin_payout_solvency
    (s : RState) (c : Ctx) (hpaused : s.paused = false) (hval : c.value = SPIN_COST)
    (hhb : MAX_PRIZE ≤ s.houseBalance)
    (hcool : s.lastSpinTime c.sender + COOLDOWN_PERIOD ≤ c.timestamp) :
    calculatePrize (generateQuickRandomNumber c.entropy) ≤ s.houseBalance + c.value ∧
    (∃ o, quickSpin s c = Except.ok o) := by
  refine ⟨?_, quickSpin_ok_of hpaused hval hhb hcool⟩
  have := calculatePrize_le_max (generateQuickRandomNumber c.entropy)
  omega

/-- C3 witness: a concrete admitted quick-spin that draws the maximum prize
is still paid and the call succeeds. -/
theorem quickspin_payout_solvency_witness :
    calculatePrize (generateQuickRandomNumber 999) ≤ MAX_PRIZE + SPIN_COST ∧
    (∃ o, quickSpin { initialState 0 with houseBalance := MAX_PRIZE, balance := MAX_PRIZE }
      ⟨1, SPIN_COST, 100, 10, 999, true⟩ = Except.ok o) :=
  quickspin_payout_solvency
    { initialState 0 with houseBalance := MAX_PRIZE, balance := MAX_PRIZE }
    ⟨1, SPIN_COST, 100, 10, 999, true⟩ rfl rfl (by decide) (by decide)
